import Mathlib

/-!
Verification of the burnell subject-parsing and tenant-policy core.

The subject parser (`ExtractTenant`, `VerifySubject`) lives in the
repository's `src/route` package, whose source is not included here; those
definitions are modelled from the specification's algorithm (spec sections
4.1 and 4.2) and validated against the repository's `TestSubjectMatch` test.
The policy catalog, admin-API evaluators, the TTL policy cache and the
feature check are embedded from `src/policy/policy.go`; the cache operations
follow the documented semantics of the `patrickmn/go-cache` library
(`New`, `Get`, `Add`, `set`) that `policy.go` uses, and `util.StrContains` /
`util.SuperRoles` (the `util` package is also not included) are modelled
from the spec as an exact string membership test over a configured list.

Strings are handled through their character lists; `splitOnChar` mirrors
Go's `strings.Split` with a one-character separator and `joinWith` mirrors
`strings.Join` with a one-character separator.
-/

/-- Mirror of Go `strings.Split(s, sep)` for a single-character separator,
on character lists: `splitOnChar c [] = [[]]`, and each occurrence of `c`
starts a new (possibly empty) chunk. -/
def splitOnChar (c : Char) : List Char → List (List Char)
  | [] => [[]]
  | x :: xs =>
    if x = c then [] :: splitOnChar c xs
    else
      match splitOnChar c xs with
      | [] => [[x]]
      | y :: ys => (x :: y) :: ys

/-- Mirror of Go `strings.Join(parts, sep)` for a single-character
separator, on character lists. -/
def joinWith (c : Char) : List (List Char) → List Char
  | [] => []
  | [x] => x
  | x :: y :: ys => x ++ c :: joinWith c (y :: ys)

/-- The hyphen separator used by the subject parser. -/
def hyphen : Char := '-'

/-- The delegated/service-identity marker `"-client"`, as a character list. -/
def clientSuffix : List Char := String.toList ("-client")

/-- Mirror of Go `strings.TrimSuffix(l, suf)`: drop `suf` from the end of
`l` when it is a suffix, otherwise return `l` unchanged. -/
def trimSuffix (suf l : List Char) : List Char :=
  if suf.isSuffixOf l then l.take (l.length - suf.length) else l

/-- Modelled from the spec (section 4.1, step 3): given the rejoined `base`,
strip one trailing `"-client"` marker if present, producing
`(immediate, root)`. -/
def stripClient (base : List Char) : List Char × List Char :=
  if clientSuffix.isSuffixOf base then (base, trimSuffix clientSuffix base)
  else (base, base)

/-- Modelled from the spec: `ExtractTenant` of the `src/route` package (not
under `src/`), on character lists. Spec section 4.1: a subject with no
hyphen is returned unchanged as both outputs; otherwise the subject is
split on hyphens, the final token dropped, the rest rejoined with hyphens
to form `base`, and one trailing `"-client"` marker stripped from `base`
(if present) to obtain the root tenant. -/
def extractTenantList (s : List Char) : List Char × List Char :=
  if (splitOnChar hyphen s).length < 2 then (s, s)
  else stripClient (joinWith hyphen (splitOnChar hyphen s).dropLast)

/-- Modelled from the spec: `ExtractTenant(subject) -> (immediate, root)`
of the `src/route` package (not under `src/`). -/
def ExtractTenant (subject : String) : String × String :=
  (String.mk (extractTenantList subject.toList).1,
   String.mk (extractTenantList subject.toList).2)

/-- Modelled from the spec (section 4.2): `VerifySubject(tenant, subject)`
of the `src/route` package (not under `src/`): true iff `tenant` equals
the immediate or the root output of `ExtractTenant subject`. -/
def VerifySubject (tenant subject : String) : Bool :=
  tenant == (ExtractTenant subject).1 || tenant == (ExtractTenant subject).2

/-! The following examples replay every assertion of the repository's
`TestSubjectMatch` test against the modelled parser. -/

example : VerifySubject ("chris-kafkaesque-io") ("chris-kafkaesque-io-12345qbc") = true := by decide
example : VerifySubject ("chris-kafkaesque-io") ("chris-kafkaesque-io-client-12345qbc") = true := by decide
example : VerifySubject ("chris-kafkaesque-io-client") ("chris-kafkaesque-io-client-client-12345qbc") = true := by decide
example : VerifySubject ("chris-kafkaesque-io") ("chris-kafkaesque-io") = false := by decide
example : VerifySubject ("chris-kafkaesque-io") ("chris-kafkaesque-io-client-client-12345qbc") = false := by decide
example : VerifySubject ("chris-kafkaesque-io-client") ("chris-kafkaesque-io-client-client-client-12345qbc") = false := by decide
example : VerifySubject ("chris-kafkaesque") ("chris-kafkaesque-io-12345qbc") = false := by decide
example : ExtractTenant ("adminuser") = ("adminuser", "adminuser") := by decide
example : ExtractTenant ("chris-kafkaesque-io-client-12345qbc")
    = ("chris-kafkaesque-io-client", "chris-kafkaesque-io") := by decide
example : ExtractTenant ("chris-kafkaesque-io-client-client-12345qbc")
    = ("chris-kafkaesque-io-client-client", "chris-kafkaesque-io-client") := by decide
example : ExtractTenant ("chris-kafkaesque-io-clien-12345qbc")
    = ("chris-kafkaesque-io-clien", "chris-kafkaesque-io-clien") := by decide

/-- Tier name constant `FreeTier` from `policy.go`. -/
def FreeTier : String := "free"

/-- Tier name constant `StarterTier` from `policy.go`. -/
def StarterTier : String := "starter"

/-- Tier name constant `ProductionTier` from `policy.go`. -/
def ProductionTier : String := "production"

/-- Tier name constant `DedicatedTier` from `policy.go`. -/
def DedicatedTier : String := "dedicated"

/-- Tier name constant `PrivateTier` from `policy.go`. -/
def PrivateTier : String := "private"

/-- Feature sentinel `FeatureAllEnabled` from `policy.go`. -/
def FeatureAllEnabled : String := "all-enabled"

/-- Feature sentinel `FeatureAllDisabled` from `policy.go`. -/
def FeatureAllDisabled : String := "all-disabled"

/-- Feature code `BrokerMetrics` from `policy.go`. -/
def BrokerMetrics : String := "broker-metrics"

/-- One nanosecond-denominated hour, i.e. Go's `time.Hour` as an `int64`
nanosecond count. -/
def timeHour : Int := 3600000000000

/-- `PlanPolicy` from `policy.go`: a tier's quota and feature bundle.
`MessageRetention` is Go's `time.Duration`, an `int64` nanosecond count. -/
structure PlanPolicy where
  Name : String
  NumOfTopics : Int
  NumOfNamespaces : Int
  MessageHourRetention : Int
  MessageRetention : Int
  NumOfProducers : Int
  NumOfConsumers : Int
  Functions : Int
  FeatureCodes : String
deriving DecidableEq

/-- `PlanPolicies` from `policy.go`: the five-tier catalog record. -/
structure PlanPolicies where
  FreePlan : PlanPolicy
  StarterPlan : PlanPolicy
  ProductionPlan : PlanPolicy
  DedicatedPlan : PlanPolicy
  PrivatePlan : PlanPolicy
deriving DecidableEq

/-- `TenantPlanPolicies` from `policy.go`: the static tier table. -/
def TenantPlanPolicies : PlanPolicies :=
  { FreePlan :=
      { Name := FreeTier
        NumOfTopics := 5
        NumOfNamespaces := 1
        MessageRetention := 2 * 24 * timeHour
        MessageHourRetention := 2 * 24
        NumOfProducers := 3
        NumOfConsumers := 5
        Functions := 1
        FeatureCodes := FeatureAllDisabled }
    StarterPlan :=
      { Name := StarterTier
        NumOfTopics := 20
        NumOfNamespaces := 2
        MessageRetention := 7 * 24 * timeHour
        MessageHourRetention := 7 * 24
        NumOfProducers := 30
        NumOfConsumers := 50
        Functions := 10
        FeatureCodes := FeatureAllDisabled }
    ProductionPlan :=
      { Name := ProductionTier
        NumOfTopics := 100
        NumOfNamespaces := 6
        MessageRetention := 14 * 24 * timeHour
        MessageHourRetention := 14 * 24
        NumOfProducers := 60
        NumOfConsumers := 100
        Functions := 20
        FeatureCodes := FeatureAllDisabled }
    DedicatedPlan :=
      { Name := DedicatedTier
        NumOfTopics := 1000
        NumOfNamespaces := 500
        MessageRetention := 21 * 24 * timeHour
        MessageHourRetention := 21 * 24
        NumOfProducers := 300
        NumOfConsumers := 500
        Functions := 30
        FeatureCodes := FeatureAllDisabled }
    PrivatePlan :=
      { Name := PrivateTier
        NumOfTopics := 5000
        NumOfNamespaces := 1000
        MessageRetention := 28 * 24 * timeHour
        MessageHourRetention := 28 * 24
        NumOfProducers := -1
        NumOfConsumers := -1
        Functions := -1
        FeatureCodes := FeatureAllEnabled } }

/-- `getPlanPolicy` from `policy.go`: the switch over tier names; `none`
stands for Go's `nil` pointer result. -/
def getPlanPolicy (plan : String) : Option PlanPolicy :=
  if plan = FreeTier then some TenantPlanPolicies.FreePlan
  else if plan = StarterTier then some TenantPlanPolicies.StarterPlan
  else if plan = ProductionTier then some TenantPlanPolicies.ProductionPlan
  else if plan = DedicatedTier then some TenantPlanPolicies.DedicatedPlan
  else if plan = PrivateTier then some TenantPlanPolicies.PrivatePlan
  else none

/-- A cache item of the `patrickmn/go-cache` library: the stored value plus
its absolute expiration instant in nanosecond ticks (`0` means no expiry). -/
structure CacheItem where
  value : PlanPolicy
  expiration : Nat
deriving DecidableEq

/-- The `go-cache` cache state behind `TenantPolicyMap` in `policy.go`:
the default expiration window and the keyed items. -/
structure TTLCache where
  defaultExpiration : Nat
  items : List (String × CacheItem)
deriving DecidableEq

/-- The default expiration passed to `cache.New` in `policy.go`:
`15 * time.Minute` in nanoseconds. -/
def tenantPolicyMapDefaultExpiration : Nat := 900000000000

/-- `TenantPolicyMap` from `policy.go` at process start:
`cache.New(15*time.Minute, 3*time.Hour)` yields an empty cache whose
default expiration is fifteen minutes (the cleanup interval only affects
garbage collection, not visibility, so it is not part of the state). -/
def tenantPolicyMapInit : TTLCache :=
  { defaultExpiration := tenantPolicyMapDefaultExpiration, items := [] }

/-- `go-cache` `Get`/`get` at instant `now`: an item is found only when it
is present and not expired (`Expiration > 0 && now > Expiration` means
expired). -/
def cacheGet (c : TTLCache) (now : Nat) (k : String) : Option PlanPolicy :=
  match c.items.find? (fun it => it.1 == k) with
  | none => none
  | some it =>
    if 0 < it.2.expiration ∧ it.2.expiration < now then none
    else some it.2.value

/-- `go-cache` `set` with the default duration: store the value under `k`
with expiration `now + defaultExpiration`, replacing any previous entry. -/
def cacheSet (c : TTLCache) (now : Nat) (k : String) (v : PlanPolicy) : TTLCache :=
  { defaultExpiration := c.defaultExpiration
    items := (k, { value := v, expiration := now + c.defaultExpiration })
      :: c.items.filter (fun it => !(it.1 == k)) }

/-- `go-cache` `Add`: insert only if no unexpired item exists for `k`;
otherwise return an error (`none`) and leave the cache unchanged. -/
def cacheAdd (c : TTLCache) (now : Nat) (k : String) (v : PlanPolicy) : Option TTLCache :=
  match cacheGet c now k with
  | some _ => none
  | none => some (cacheSet c now k v)

/-- `UpdateCache` from `policy.go`:
`TenantPolicyMap.Add(tenant, plan, cache.DefaultExpiration)` with the
returned error discarded. -/
def UpdateCache (c : TTLCache) (now : Nat) (tenant : String) (plan : PlanPolicy) : TTLCache :=
  match cacheAdd c now tenant plan with
  | some c2 => c2
  | none => c

/-- Modelled from the spec: `util.StrContains` (the `util` package is not
under `src/`), an exact string membership test over a list, mirroring the
spec's opaque set-membership check. -/
def StrContains : List String → String → Bool
  | [], _ => false
  | v :: rest, str => if str = v then true else StrContains rest str

/-- An HTTP request as far as this core observes it: its method string. -/
structure HttpRequest where
  Method : String
deriving DecidableEq

/-- Go's `http.MethodGet`. -/
def MethodGet : String := "GET"

/-- `EvalNamespaceAdminAPI` from `policy.go`; `util.SuperRoles` (the
configured superuser role list, whose `util` package is not under `src/`)
is modelled from the spec as an explicit parameter. -/
def EvalNamespaceAdminAPI (superRoles : List String) (r : HttpRequest) (subject : String) : Bool :=
  StrContains superRoles subject || r.Method == MethodGet

/-- `EvalTopicAdminAPI` from `policy.go`; `util.SuperRoles` modelled as an
explicit parameter as for `EvalNamespaceAdminAPI`. -/
def EvalTopicAdminAPI (superRoles : List String) (r : HttpRequest) (subject : String) : Bool :=
  StrContains superRoles subject || r.Method == MethodGet

/-- Mirror of Go `strings.Split(s, ",")` producing strings. -/
def splitComma (s : String) : List String :=
  (splitOnChar ',' s.toList).map String.mk

/-- `IsFeatureSupported` from `policy.go`:
`util.StrContains(strings.Split(featureCodes, ","), feature)`. -/
def IsFeatureSupported (feature featureCodes : String) : Bool :=
  StrContains (splitComma featureCodes) feature

theorem splitOnChar_ne_nil (c : Char) (l : List Char) : splitOnChar c l ≠ [] := by
  cases l with
  | nil => simp [splitOnChar]
  | cons x xs =>
    simp only [splitOnChar]
    split
    · simp
    · split
      · simp
      · simp

theorem splitOnChar_append (c : Char) (a b : List Char) :
    splitOnChar c (a ++ c :: b) = splitOnChar c a ++ splitOnChar c b := by
  induction a with
  | nil => simp [splitOnChar]
  | cons x xs ih =>
    by_cases hx : x = c
    · subst hx
      simp [splitOnChar, ih]
    · simp only [List.cons_append, splitOnChar, List.append_eq, if_neg hx]
      rw [ih]
      cases hxs : splitOnChar c xs with
      | nil => exact absurd hxs (splitOnChar_ne_nil c xs)
      | cons y ys => simp

theorem splitOnChar_of_not_mem (c : Char) (l : List Char) (h : c ∉ l) :
    splitOnChar c l = [l] := by
  induction l with
  | nil => rfl
  | cons x xs ih =>
    have hx : ¬ (x = c) := fun he => h (by simp [he])
    have hxs : c ∉ xs := fun hm => h (List.mem_cons_of_mem _ hm)
    simp [splitOnChar, if_neg hx, ih hxs]

theorem joinWith_splitOnChar (c : Char) (l : List Char) :
    joinWith c (splitOnChar c l) = l := by
  induction l with
  | nil => rfl
  | cons x xs ih =>
    by_cases hx : x = c
    · subst hx
      cases hxs : splitOnChar x xs with
      | nil => exact absurd hxs (splitOnChar_ne_nil x xs)
      | cons y ys =>
        rw [hxs] at ih
        simp [splitOnChar, hxs, joinWith, ih]
    · cases hxs : splitOnChar c xs with
      | nil => exact absurd hxs (splitOnChar_ne_nil c xs)
      | cons y ys =>
        rw [hxs] at ih
        cases ys with
        | nil =>
          simp only [joinWith] at ih
          simp [splitOnChar, if_neg hx, hxs, joinWith, ih]
        | cons z zs =>
          simp only [joinWith] at ih ⊢
          simp [splitOnChar, if_neg hx, hxs, joinWith, ih]

theorem joinWith_concat (c : Char) (xs : List (List Char)) (y : List Char) (h : xs ≠ []) :
    joinWith c (xs ++ [y]) = joinWith c xs ++ c :: y := by
  induction xs with
  | nil => exact absurd rfl h
  | cons x xs' ih =>
    cases xs' with
    | nil => simp [joinWith]
    | cons w ws =>
      have hih := ih (by simp)
      simp only [List.cons_append, List.append_eq, joinWith] at hih ⊢
      rw [hih]
      simp

theorem stripClient_of_suffix (T : List Char) :
    stripClient (T ++ clientSuffix) = (T ++ clientSuffix, T) := by
  have hs : clientSuffix.isSuffixOf (T ++ clientSuffix) = true := by
    rw [List.isSuffixOf_iff_suffix]
    exact ⟨T, rfl⟩
  have hlen : (T ++ clientSuffix).length - clientSuffix.length = T.length := by
    simp [List.length_append]
  rw [stripClient, if_pos hs, trimSuffix, if_pos hs, hlen]
  rw [List.take_left]

theorem stripClient_of_not_suffix (T : List Char) (h : ¬ clientSuffix <:+ T) :
    stripClient T = (T, T) := by
  have hs : ¬ clientSuffix.isSuffixOf T = true := by
    rw [List.isSuffixOf_iff_suffix]
    exact h
  rw [stripClient, if_neg hs]

theorem hyphen_not_mem_client : hyphen ∉ String.toList ("client") := by decide

theorem clientSuffix_eq : clientSuffix = hyphen :: String.toList ("client") := by decide

theorem extractTenantList_glued (T S : List Char) (hSm : hyphen ∉ S) :
    extractTenantList (T ++ hyphen :: S) = stripClient (joinWith hyphen (splitOnChar hyphen T)) := by
  have h2 : splitOnChar hyphen (T ++ hyphen :: S) = splitOnChar hyphen T ++ [S] := by
    rw [splitOnChar_append, splitOnChar_of_not_mem _ _ hSm]
  have hlen : ¬ (splitOnChar hyphen (T ++ hyphen :: S)).length < 2 := by
    rw [h2, List.length_append]
    have := List.length_pos.mpr (splitOnChar_ne_nil hyphen T)
    simp only [List.length_cons, List.length_nil]
    omega
  rw [extractTenantList, if_neg hlen, h2, List.dropLast_concat]

theorem extractTenantList_plain (T S : List Char) (hSm : hyphen ∉ S)
    (hT : ¬ clientSuffix <:+ T) :
    extractTenantList (T ++ hyphen :: S) = (T, T) := by
  rw [extractTenantList_glued T S hSm, joinWith_splitOnChar]
  exact stripClient_of_not_suffix T hT

theorem extractTenantList_client (T S : List Char) (hSm : hyphen ∉ S) :
    extractTenantList (T ++ clientSuffix ++ hyphen :: S) = (T ++ clientSuffix, T) := by
  have e1 : T ++ clientSuffix ++ hyphen :: S
      = (T ++ clientSuffix) ++ hyphen :: S := rfl
  have hbase : joinWith hyphen (splitOnChar hyphen (T ++ clientSuffix)) = T ++ clientSuffix :=
    joinWith_splitOnChar hyphen (T ++ clientSuffix)
  rw [e1, extractTenantList_glued (T ++ clientSuffix) S hSm, hbase]
  exact stripClient_of_suffix T

theorem extractTenantList_no_hyphen (s : List Char) (h : hyphen ∉ s) :
    extractTenantList s = (s, s) := by
  rw [extractTenantList, splitOnChar_of_not_mem _ _ h]
  simp

theorem string_mk_eq_iff (l : List Char) (s : String) : String.mk l = s ↔ l = s.toList := by
  constructor
  · intro h
    rw [← h]
    rfl
  · intro h
    rw [h]
    rfl

theorem toList_append (a b : String) : (a ++ b).toList = a.toList ++ b.toList := rfl

theorem extractTenant_eq_iff (s a b : String) :
    ExtractTenant s = (a, b) ↔ extractTenantList s.toList = (a.toList, b.toList) := by
  rw [ExtractTenant, Prod.ext_iff, Prod.ext_iff]
  simp [string_mk_eq_iff]

theorem concat_suffix_last (a b : List Char) (x y : Char)
    (h : a ++ [x] <:+ b ++ [y]) : x = y := by
  obtain ⟨p, hp⟩ := h
  have h1 : ((p ++ a) ++ [x]).getLast? = (b ++ [y]).getLast? := by
    rw [List.append_assoc]
    exact congrArg List.getLast? hp
  rw [List.getLast?_concat, List.getLast?_concat] at h1
  exact Option.some.inj h1

theorem extractTenantList_shape (s : List Char) :
    (extractTenantList s).1 <+: s ∧
    ((extractTenantList s).2 = (extractTenantList s).1 ∨
      (extractTenantList s).1 = (extractTenantList s).2 ++ clientSuffix) ∧
    (extractTenantList s).2 <+: (extractTenantList s).1 := by
  by_cases hlen : (splitOnChar hyphen s).length < 2
  · rw [extractTenantList, if_pos hlen]
    exact ⟨List.prefix_refl s, Or.inl rfl, List.prefix_refl s⟩
  · rw [extractTenantList, if_neg hlen]
    rcases List.eq_nil_or_concat' (splitOnChar hyphen s) with h | ⟨L, b, hLb⟩
    · exact absurd h (splitOnChar_ne_nil hyphen s)
    · have hL : L ≠ [] := by
        intro h0
        rw [hLb, h0] at hlen
        simp at hlen
      have hdrop : (splitOnChar hyphen s).dropLast = L := by
        rw [hLb, List.dropLast_concat]
      have hs : s = joinWith hyphen L ++ hyphen :: b := by
        conv_lhs => rw [← joinWith_splitOnChar hyphen s]
        rw [hLb, joinWith_concat hyphen L b hL]
      rw [hdrop]
      have hpre : joinWith hyphen L <+: s := ⟨hyphen :: b, hs.symm⟩
      by_cases hsuf : clientSuffix <:+ joinWith hyphen L
      · obtain ⟨p, hp⟩ := hsuf
        have hst : stripClient (joinWith hyphen L) = (joinWith hyphen L, p) := by
          rw [← hp]
          exact stripClient_of_suffix p
        rw [hst]
        exact ⟨hpre, Or.inr hp.symm, ⟨clientSuffix, hp⟩⟩
      · rw [stripClient_of_not_suffix _ hsuf]
        exact ⟨hpre, Or.inl rfl, List.prefix_refl _⟩

/-- C1: `VerifySubject tenant subject` is true exactly when `tenant` equals
the immediate output or the root output of `ExtractTenant subject`. -/
theorem verifySubject_iff_extractTenant (tenant subject : String) :
    VerifySubject tenant subject = true ↔
      (tenant = (ExtractTenant subject).1 ∨ tenant = (ExtractTenant subject).2) := by
  simp [VerifySubject]

/-- C2: for every `t` and every non-empty hyphen-free `sfx`,
`ExtractTenant (t ++ "-client-" ++ sfx)` is `(t ++ "-client", t)`, and only
one trailing `"-client"` marker is stripped:
`ExtractTenant (t ++ "-client-client-" ++ sfx)` is
`(t ++ "-client-client", t ++ "-client")`. -/
theorem extractTenant_client_strip (t sfx : String) (_h1 : sfx.toList ≠ [])
    (h2 : hyphen ∉ sfx.toList) :
    ExtractTenant (t ++ "-client-" ++ sfx) = (t ++ "-client", t) ∧
    ExtractTenant (t ++ "-client-client-" ++ sfx)
      = (t ++ "-client-client", t ++ "-client") := by
  constructor
  · rw [extractTenant_eq_iff]
    have e : (t ++ "-client-" ++ sfx).toList
        = t.toList ++ clientSuffix ++ hyphen :: sfx.toList := by
      rw [toList_append, toList_append]
      have h3 : String.toList ("-client-") = clientSuffix ++ [hyphen] := by decide
      rw [h3]
      simp [List.append_assoc]
    rw [e, extractTenantList_client _ _ h2]
    have e2 : (t ++ "-client").toList = t.toList ++ clientSuffix := by
      rw [toList_append]
      rfl
    rw [e2]
  · rw [extractTenant_eq_iff]
    have e : (t ++ "-client-client-" ++ sfx).toList
        = (t.toList ++ clientSuffix) ++ clientSuffix ++ hyphen :: sfx.toList := by
      rw [toList_append, toList_append]
      have h3 : String.toList ("-client-client-")
          = clientSuffix ++ clientSuffix ++ [hyphen] := by decide
      rw [h3]
      simp [List.append_assoc]
    rw [e, extractTenantList_client _ _ h2]
    have e2 : (t ++ "-client-client").toList = (t.toList ++ clientSuffix) ++ clientSuffix := by
      rw [toList_append]
      have h4 : String.toList ("-client-client") = clientSuffix ++ clientSuffix := by decide
      rw [h4]
      simp [List.append_assoc]
    have e3 : (t ++ "-client").toList = t.toList ++ clientSuffix := by
      rw [toList_append]
      rfl
    rw [e2, e3]

/-- Witness for C2 at a concrete tenant and suffix. -/
theorem extractTenant_client_strip_case :
    ExtractTenant ("chris" ++ "-client-" ++ "12345qbc") = ("chris" ++ "-client", "chris") ∧
    ExtractTenant ("chris" ++ "-client-client-" ++ "12345qbc")
      = ("chris" ++ "-client-client", "chris" ++ "-client") :=
  extractTenant_client_strip ("chris") ("12345qbc") (by decide) (by decide)

/-- C3: for every `t` that does not end in `"-client"` and every non-empty
hyphen-free `sfx`, both outputs of `ExtractTenant (t ++ "-" ++ sfx)` equal
`t`; and a final base token merely resembling `client` is never stripped:
`ExtractTenant (t ++ "-clien-" ++ sfx)` has both outputs `t ++ "-clien"`. -/
theorem extractTenant_no_marker (t sfx : String) (hT : ¬ clientSuffix <:+ t.toList)
    (_h1 : sfx.toList ≠ []) (h2 : hyphen ∉ sfx.toList) :
    ExtractTenant (t ++ "-" ++ sfx) = (t, t) ∧
    ExtractTenant (t ++ "-clien-" ++ sfx) = (t ++ "-clien", t ++ "-clien") := by
  constructor
  · rw [extractTenant_eq_iff]
    have e : (t ++ "-" ++ sfx).toList = t.toList ++ hyphen :: sfx.toList := by
      rw [toList_append, toList_append]
      have h3 : String.toList ("-") = [hyphen] := by decide
      rw [h3]
      simp
    rw [e]
    exact extractTenantList_plain _ _ h2 hT
  · rw [extractTenant_eq_iff]
    have e : (t ++ "-clien-" ++ sfx).toList
        = (t.toList ++ String.toList ("-clien")) ++ hyphen :: sfx.toList := by
      rw [toList_append, toList_append]
      have h3 : String.toList ("-clien-") = String.toList ("-clien") ++ [hyphen] := by decide
      rw [h3]
      simp [List.append_assoc]
    have hT2 : ¬ clientSuffix <:+ (t.toList ++ String.toList ("-clien")) := by
      intro hsuf
      have h4 : clientSuffix = String.toList ("-clien") ++ ['t'] := by decide
      have h5 : t.toList ++ String.toList ("-clien")
          = (t.toList ++ String.toList ("-clie")) ++ ['n'] := by
        have h6 : String.toList ("-clien") = String.toList ("-clie") ++ ['n'] := by decide
        rw [h6, List.append_assoc]
      rw [h4, h5] at hsuf
      exact absurd (concat_suffix_last _ _ _ _ hsuf) (by decide)
    have e2 : (t ++ "-clien").toList = t.toList ++ String.toList ("-clien") := by
      rw [toList_append]
    rw [e, extractTenantList_plain _ _ h2 hT2, e2]

/-- Witness for C3 at a concrete tenant and suffix. -/
theorem extractTenant_no_marker_case :
    ExtractTenant ("acme" ++ "-" ++ "x7") = ("acme", "acme") ∧
    ExtractTenant ("acme" ++ "-clien-" ++ "x7") = ("acme" ++ "-clien", "acme" ++ "-clien") :=
  extractTenant_no_marker ("acme") ("x7") (by decide) (by decide) (by decide)

/-- C4: a hyphen-free subject is returned unchanged as both outputs. -/
theorem extractTenant_no_hyphen (s : String) (h : hyphen ∉ s.toList) :
    ExtractTenant s = (s, s) := by
  rw [extractTenant_eq_iff]
  exact extractTenantList_no_hyphen s.toList h

/-- Witness for C4 at the test's admin account name. -/
theorem extractTenant_no_hyphen_case :
    ExtractTenant ("adminuser") = ("adminuser", "adminuser") :=
  extractTenant_no_hyphen ("adminuser") (by decide)

/-- C9: the immediate tenant is a prefix of the subject, and the root is
either equal to the immediate tenant or is the immediate tenant with one
trailing `"-client"` marker removed (hence the root is a prefix of the
immediate tenant). -/
theorem extractTenant_shape_invariant (s : String) :
    (ExtractTenant s).1.toList <+: s.toList ∧
    ((ExtractTenant s).2 = (ExtractTenant s).1 ∨
      (ExtractTenant s).1.toList = (ExtractTenant s).2.toList ++ clientSuffix) ∧
    (ExtractTenant s).2.toList <+: (ExtractTenant s).1.toList := by
  have h := extractTenantList_shape s.toList
  refine ⟨h.1, ?_, h.2.2⟩
  rcases h.2.1 with he | he
  · left
    show String.mk (extractTenantList s.toList).2 = String.mk (extractTenantList s.toList).1
    rw [he]
  · right
    exact he

/-- C5 counterexample: with an unexpired entry for `"tenantA"` already in
the cache, a second `UpdateCache` with a different policy is a no-op, so a
read immediately afterwards (well within the TTL) still observes the old
policy rather than the newly written one. -/
theorem updateCache_no_overwrite :
    cacheGet
        (UpdateCache
          (UpdateCache tenantPolicyMapInit 0 ("tenantA") TenantPlanPolicies.FreePlan)
          60000000000 ("tenantA") TenantPlanPolicies.StarterPlan)
        60000000000 ("tenantA")
      = some TenantPlanPolicies.FreePlan ∧
    TenantPlanPolicies.FreePlan ≠ TenantPlanPolicies.StarterPlan := by
  constructor
  · decide
  · decide

/-- C5 as amended: `UpdateCache` goes through the cache's `Add`, which
inserts the entry with the default expiration window only when no
unexpired entry for the tenant exists (a read up to the TTL then observes
the newly written policy); when an unexpired entry exists, the call leaves
the cache unchanged because the `Add` error is discarded. -/
theorem updateCache_add_semantics (c : TTLCache) (now t : Nat) (tenant : String)
    (plan : PlanPolicy) :
    (cacheGet c now tenant = none → t ≤ now + c.defaultExpiration →
      cacheGet (UpdateCache c now tenant plan) t tenant = some plan) ∧
    (∀ p, cacheGet c now tenant = some p → UpdateCache c now tenant plan = c) := by
  constructor
  · intro hmiss ht
    have hcond : ¬ (0 < now + c.defaultExpiration ∧ now + c.defaultExpiration < t) := by
      omega
    have h1 : UpdateCache c now tenant plan = cacheSet c now tenant plan := by
      rw [UpdateCache, cacheAdd, hmiss]
    rw [h1]
    simp [cacheGet, cacheSet, List.find?, hcond]
    omega
  · intro p hp
    simp [UpdateCache, cacheAdd, hp]

/-- Witness for C5's amended theorem: a fresh insert is readable within the
TTL, and a second call on an unexpired entry leaves the cache unchanged. -/
theorem updateCache_add_semantics_case :
    cacheGet (UpdateCache tenantPolicyMapInit 0 ("tenantA") TenantPlanPolicies.FreePlan)
        5 ("tenantA")
      = some TenantPlanPolicies.FreePlan ∧
    UpdateCache (cacheSet tenantPolicyMapInit 0 ("tenantA") TenantPlanPolicies.FreePlan)
        10 ("tenantA") TenantPlanPolicies.StarterPlan
      = cacheSet tenantPolicyMapInit 0 ("tenantA") TenantPlanPolicies.FreePlan :=
  ⟨(updateCache_add_semantics tenantPolicyMapInit 0 5 ("tenantA")
      TenantPlanPolicies.FreePlan).1 (by decide) (by decide),
   (updateCache_add_semantics
      (cacheSet tenantPolicyMapInit 0 ("tenantA") TenantPlanPolicies.FreePlan) 10 0
      ("tenantA") TenantPlanPolicies.StarterPlan).2 TenantPlanPolicies.FreePlan (by decide)⟩

/-- C6: `getPlanPolicy` returns a policy exactly for the five tier names,
that policy's `Name` equals the requested tier, and any other string yields
no policy. -/
theorem getPlanPolicy_known_tiers (plan : String) :
    ((getPlanPolicy plan).isSome = true ↔
      plan ∈ [FreeTier, StarterTier, ProductionTier, DedicatedTier, PrivateTier]) ∧
    (getPlanPolicy plan).elim True (fun p => p.Name = plan) := by
  unfold getPlanPolicy
  split_ifs with h1 h2 h3 h4 h5 <;>
    simp_all [TenantPlanPolicies, FreeTier, StarterTier, ProductionTier, DedicatedTier,
      PrivateTier]

/-- The non-decreasing order on quotas with `-1` read as unlimited. -/
def quotaLE (a b : Int) : Prop := b = -1 ∨ (a ≠ -1 ∧ a ≤ b)

instance : DecidableRel quotaLE := fun a b =>
  inferInstanceAs (Decidable (b = -1 ∨ (a ≠ -1 ∧ a ≤ b)))

/-- The tier order of the catalog, from lowest to highest. -/
def tierOrder : List PlanPolicy :=
  [TenantPlanPolicies.FreePlan, TenantPlanPolicies.StarterPlan,
   TenantPlanPolicies.ProductionPlan, TenantPlanPolicies.DedicatedPlan,
   TenantPlanPolicies.PrivatePlan]

/-- C7: every quota field of the static tier table is monotonically
non-decreasing across free, starter, production, dedicated, private when
`-1` is read as unlimited, and `-1` occurs only in the private tier and
only for producers, consumers and functions. -/
theorem tenantPlanPolicies_monotone :
    List.Chain' (fun p q => quotaLE p.NumOfTopics q.NumOfTopics) tierOrder ∧
    List.Chain' (fun p q => quotaLE p.NumOfNamespaces q.NumOfNamespaces) tierOrder ∧
    List.Chain' (fun p q => quotaLE p.MessageRetention q.MessageRetention) tierOrder ∧
    List.Chain' (fun p q => quotaLE p.MessageHourRetention q.MessageHourRetention) tierOrder ∧
    List.Chain' (fun p q => quotaLE p.NumOfProducers q.NumOfProducers) tierOrder ∧
    List.Chain' (fun p q => quotaLE p.NumOfConsumers q.NumOfConsumers) tierOrder ∧
    List.Chain' (fun p q => quotaLE p.Functions q.Functions) tierOrder ∧
    (tierOrder.all fun p =>
      decide (p.NumOfTopics ≠ -1 ∧ p.NumOfNamespaces ≠ -1 ∧
        p.MessageRetention ≠ -1 ∧ p.MessageHourRetention ≠ -1)) = true ∧
    (tierOrder.all fun p =>
      decide ((p.NumOfProducers = -1 ∨ p.NumOfConsumers = -1 ∨ p.Functions = -1) →
        p = TenantPlanPolicies.PrivatePlan)) = true ∧
    TenantPlanPolicies.PrivatePlan.NumOfProducers = -1 ∧
    TenantPlanPolicies.PrivatePlan.NumOfConsumers = -1 ∧
    TenantPlanPolicies.PrivatePlan.Functions = -1 := by
  refine ⟨?_, ?_, ?_, ?_, ?_, ?_, ?_, by decide, by decide, by decide, by decide, by decide⟩ <;>
    · simp only [tierOrder, List.chain'_cons, List.chain'_singleton]
      decide

theorem strContains_iff (l : List String) (s : String) :
    StrContains l s = true ↔ s ∈ l := by
  induction l with
  | nil => simp [StrContains]
  | cons v rest ih =>
    by_cases h : s = v
    · subst h
      simp [StrContains]
    · simp [StrContains, if_neg h, ih, h]

/-- C8: each admin-API evaluator grants access exactly to superusers or to
GET requests, and the two evaluators agree on every input. -/
theorem evalAdminAPI_superuser_or_get (superRoles : List String) (r : HttpRequest)
    (subject : String) :
    (EvalNamespaceAdminAPI superRoles r subject = true ↔
      (subject ∈ superRoles ∨ r.Method = MethodGet)) ∧
    (EvalTopicAdminAPI superRoles r subject = true ↔
      (subject ∈ superRoles ∨ r.Method = MethodGet)) ∧
    EvalNamespaceAdminAPI superRoles r subject = EvalTopicAdminAPI superRoles r subject := by
  refine ⟨?_, ?_, rfl⟩ <;>
    simp [EvalNamespaceAdminAPI, EvalTopicAdminAPI, strContains_iff]

/-- C10: `IsFeatureSupported` is true exactly when the feature equals one
of the comma-separated tokens of the feature-code string; the sentinel
`"all-enabled"` is not treated specially, so against
`featureCodes = "all-enabled"` only the literal feature `"all-enabled"`
matches and in particular `"broker-metrics"` does not. -/
theorem isFeatureSupported_exact_match (feature featureCodes : String) :
    (IsFeatureSupported feature featureCodes = true ↔ feature ∈ splitComma featureCodes) ∧
    IsFeatureSupported feature FeatureAllEnabled = (feature == FeatureAllEnabled) ∧
    IsFeatureSupported BrokerMetrics FeatureAllEnabled = false := by
  refine ⟨strContains_iff _ _, ?_, by decide⟩
  have hsplit : splitComma FeatureAllEnabled = [FeatureAllEnabled] := by decide
  rw [IsFeatureSupported, hsplit]
  by_cases h : feature = FeatureAllEnabled <;> simp [StrContains, h]
